import Mathlib

/-!
Shallow embedding of `src/default.rs` of the `more-rs-config` repository:
`DefaultConfigurationRoot`, `DefaultConfigurationSection`, `ProviderIter` /
`Item`, and the reload protocol, together with the external capabilities the
core consumes (`ConfigurationProvider`, change tokens, `ReloadError`,
`ConfigurationPath::combine`), which are modelled from the spec where their
code is not under `src/`.

Machine conventions: `Value` is modelled as `String` (the spec: a string-like
scalar whose absence is meaningful, hence `Option String` for lookups).
Rust's `Rc`/`RefCell` sharing state is made explicit in `RootState`:
`refBorrows` counts outstanding `Ref` guards of the `RefCell` (live
`providers()` iterators and the items they yielded), `rcExtra` counts extra
`Rc` strong references (clones of the root, including the clone held by every
section), `weakCount` the weak references.
-/

/-- Modelled from the spec (the `ConfigurationProvider` capability is external
to `src/`): a provider has a name, a current key lookup function, a pending
lookup function that a successful `load()` installs, and a fixed `load()`
outcome; `loadCount` and `tokenCaptures` record how many times the core has
invoked `load()` and `reload_token()` on it. `childKeys` appends the
provider's immediate child keys under a parent path (no dedup). -/
structure Provider where
  name : String
  get : String → Option String
  pendingGet : String → Option String
  childKeys : Option String → List String
  loadErr : Option String
  loadCount : Nat
  tokenCaptures : Nat

/-- Modelled from the spec (the `tokens` crate is external to `src/`): a
change token is a single-fire two-state object. `callbackRuns` holds, for
each registered callback, the number of times it has been invoked; `id`
distinguishes token objects (a fresh token is a different object). -/
structure MToken where
  id : Nat
  fired : Bool
  callbackRuns : List Nat
deriving DecidableEq

/-- Modelled from the spec: firing a token invokes every registered callback
exactly once and makes the token permanently inert (notifying an
already-fired token does nothing). -/
def MToken.notify (t : MToken) : MToken :=
  if t.fired then t
  else { t with fired := true, callbackRuns := t.callbackRuns.map (· + 1) }

/-- Modelled from the spec: `has_changed` is true once the token has fired
(sticky). -/
def MToken.hasChanged (t : MToken) : Bool :=
  t.fired

/-- Modelled from the spec (`ReloadError` is declared outside `src/`):
`Provider` carries one `(name, error)` pair per failed provider, `Borrowed`
an advisory count of outstanding borrowers. -/
inductive ReloadError where
  | provider (errors : List (String × String))
  | borrowed (count : Option Nat)
deriving DecidableEq

/-- State of a `DefaultConfigurationRoot` (from `src/default.rs` lines
81-85): the ordered provider list behind `Rc<RefCell<...>>` and the current
composite change token, with the sharing bookkeeping made explicit.
`nextTokenId` supplies fresh ids for newly built composite tokens. -/
structure RootState where
  providers : List Provider
  token : MToken
  nextTokenId : Nat
  refBorrows : Nat
  rcExtra : Nat
  weakCount : Nat

/-- A provider's `load()` (external capability, modelled from the spec):
always invoked, it installs the pending data on success and returns the
provider's fixed error on failure. -/
def Provider.load (p : Provider) : Provider × Option String :=
  match p.loadErr with
  | none => ({ p with get := p.pendingGet, loadCount := p.loadCount + 1 }, none)
  | some e => ({ p with loadCount := p.loadCount + 1 }, some e)

/-- One iteration of the loop in `DefaultConfigurationRoot::reload` (and
`::new`), lines 97-105 and 126-134 of `default.rs`: call `load()`, record
`(provider.name(), error)` on failure, and capture `provider.reload_token()`
regardless of the outcome. -/
def reloadStep (p : Provider) : Provider × Option (String × String) :=
  match p.load with
  | (p1, e) =>
    ({ p1 with tokenCaptures := p1.tokenCaptures + 1 },
     e.map (fun err => (p.name, err)))

/-- `DefaultConfigurationRoot::reload` (`default.rs` lines 119-149).
`borrowed` is computed from the `Rc` counts (`strong_count - 1 + weak_count`,
line 120); `try_borrow_mut` succeeds exactly when no `Ref` guard of the
`RefCell` is outstanding. On success every provider is loaded in
registration order, a new composite token is swapped in, and the old token
is notified unconditionally. The third component returns the old token after
notification (the caller of the embedding observes it, as a test would by
retaining `reload_token()` before the call); it is `none` when exclusive
access was not obtained. -/
def reload (s : RootState) : RootState × Except ReloadError Unit × Option MToken :=
  if s.refBorrows = 0 then
    let stepped := s.providers.map reloadStep
    let providers1 := stepped.map Prod.fst
    let errors := stepped.filterMap Prod.snd
    let newTok : MToken := ⟨s.nextTokenId, false, []⟩
    let oldTok := s.token.notify
    ({ s with providers := providers1, token := newTok,
              nextTokenId := s.nextTokenId + 1 },
     (if errors.isEmpty then Except.ok () else Except.error (ReloadError.provider errors)),
     some oldTok)
  else
    (s, Except.error (ReloadError.borrowed (some (s.rcExtra + s.weakCount))), none)

/-- `DefaultConfigurationRoot::new` (`default.rs` lines 93-115): load every
provider in order collecting errors and tokens; build the root only when no
provider failed. -/
def newRoot (ps : List Provider) : Except ReloadError RootState :=
  let stepped := ps.map reloadStep
  let errors := stepped.filterMap Prod.snd
  if errors.isEmpty then
    Except.ok { providers := stepped.map Prod.fst, token := ⟨0, false, []⟩,
                nextTokenId := 1, refBorrows := 0, rcExtra := 0, weakCount := 0 }
  else
    Except.error (ReloadError.provider errors)

/-- First `Some` while scanning a provider list front to back. -/
def firstSome (ps : List Provider) (k : String) : Option String :=
  match ps with
  | [] => none
  | p :: rest =>
    match p.get k with
    | some v => some v
    | none => firstSome rest k

/-- `Configuration::get` for `DefaultConfigurationRoot` (`default.rs` lines
161-169): `self.providers().rev()` repeatedly calls
`ProviderIter::next_back`, which yields the providers from index
`len - 1` down to `0`, i.e. the reversed registration order; the loop
returns the first `Some(value)`. -/
def rootGet (s : RootState) (k : String) : Option String :=
  firstSome s.providers.reverse k

/-- Obtaining the enumeration of `DefaultConfigurationRoot::providers`
(`default.rs` lines 151-153) takes a shared `RefCell` borrow that lives as
long as the iterator. -/
def providersBorrow (s : RootState) : RootState :=
  { s with refBorrows := s.refBorrows + 1 }

/-- Dropping a live `providers()` enumeration releases its `RefCell`
borrow. -/
def dropBorrow (s : RootState) : RootState :=
  { s with refBorrows := s.refBorrows - 1 }

/-- `Configuration::section` for the root (`default.rs` lines 171-176)
clones the root (`self.clone()`) into the new section, adding one `Rc`
strong reference; the section itself holds only the path. -/
def mkSectionState (s : RootState) : RootState :=
  { s with rcExtra := s.rcExtra + 1 }

/-- Modelled from the spec (`ConfigurationPath::combine` is outside `src/`):
combination of two path fragments with the reserved `:` separator; when one
operand is empty the other is returned unchanged. -/
def combine (a b : String) : String :=
  if a = "" then b else if b = "" then a else a ++ ":" ++ b

/-- `DefaultConfigurationSection::subkey` (`default.rs` lines 249-252):
the path of a child of a section at `path`. -/
def subkey (path key : String) : String :=
  combine path key

/-- `Configuration::get` for `DefaultConfigurationSection` (`default.rs`
lines 256-258): delegate to the root at the combined path. -/
def sectionGet (s : RootState) (path key : String) : Option String :=
  rootGet s (subkey path key)

/-- `ConfigurationSection::value` (`default.rs` lines 303-305):
`root.get(path).unwrap_or_default()`; the spec's `Value` default is the
empty string. -/
def sectionValue (s : RootState) (path : String) : String :=
  (rootGet s path).getD ""

/-- Concrete state for C2's witness: two providers, the second failing, an
unfired current token with one registered callback. -/
def demoC2 : RootState :=
  ⟨[⟨"A", fun _ => none, fun _ => some "newA", fun _ => ["x"], none, 0, 0⟩,
    ⟨"B", fun _ => none, fun _ => none, fun _ => ["X", "y"], some "boom", 0, 0⟩],
   ⟨0, false, [0]⟩, 1, 0, 0, 0⟩

/-- Concrete state for C3's witness: one healthy provider, no outstanding
borrow, one extra root clone. -/
def demoC3 : RootState :=
  ⟨[⟨"A", fun _ => none, fun _ => some "newA", fun _ => [], none, 0, 0⟩],
   ⟨0, false, [0]⟩, 1, 0, 1, 0⟩

/-- Concrete state for C4's witness: three providers, the second failing. -/
def demoC4 : RootState :=
  ⟨[⟨"P1", fun _ => none, fun k => if k = "k" then some "v1" else none, fun _ => [], none, 0, 0⟩,
    ⟨"P2", fun _ => none, fun _ => none, fun _ => [], some "boom", 0, 0⟩,
    ⟨"P3", fun _ => none, fun k => if k = "k" then some "v3" else none, fun _ => [], none, 0, 0⟩],
   ⟨0, false, []⟩, 1, 0, 0, 0⟩

/-- The fold of `Configuration::children` (`default.rs` lines 178-189 for
the root, 264-276 for a section): every provider appends its immediate
child keys under `parent` (`none` at the root, `some path` at a section)
to the accumulated list; no deduplication happens here. -/
def childKeysAll (ps : List Provider) (parent : Option String) : List String :=
  ps.foldl (fun acc p => acc ++ p.childKeys parent) []

/-- `children()` then collects the accumulated keys into a
`HashSet<String>` — deduplication under exact string equality — and makes
one section per remaining key; the set of keys is modelled as the
deduplicated list. -/
def childrenKeys (ps : List Provider) (parent : Option String) : List String :=
  (childKeysAll ps parent).dedup

/-- Provider exposing the lone child key `x` at the root. -/
def demoLowerX : Provider :=
  ⟨"P1", fun _ => none, fun _ => none,
   fun pp => match pp with | none => ["x"] | some _ => [], none, 0, 0⟩

/-- Provider exposing child keys `X` and `y` at the root. -/
def demoUpperX : Provider :=
  ⟨"P2", fun _ => none, fun _ => none,
   fun pp => match pp with | none => ["X", "y"] | some _ => [], none, 0, 0⟩

/-- `ProviderIter` (`default.rs` lines 11-25): two cursors over the borrowed
provider list, `head` starting at `0` and `tail` at `items.len()`; only the
yielded index matters here, so the list is represented by its length
`count`. -/
structure PIter where
  head : Nat
  tail : Nat
  count : Nat
deriving DecidableEq

/-- `ProviderIter::new` (`default.rs` lines 18-24). -/
def PIter.new (n : Nat) : PIter :=
  ⟨0, n, n⟩

/-- `Iterator::next` (`default.rs` lines 50-58): yields index `head` while
`head < items.len()` — the guard compares against the total length, not
against `tail`. -/
def PIter.next (it : PIter) : Option (Nat × PIter) :=
  if it.head < it.count then some (it.head, { it with head := it.head + 1 })
  else none

/-- `DoubleEndedIterator::next_back` (`default.rs` lines 68-75): yields
index `tail - 1` while `tail > 0` — the guard ignores `head`. -/
def PIter.nextBack (it : PIter) : Option (Nat × PIter) :=
  if it.tail > 0 then some (it.tail - 1, { it with tail := it.tail - 1 })
  else none

/-- `ExactSizeIterator::len` (`default.rs` lines 61-65): always
`items.len()`, regardless of how many items were already yielded. -/
def PIter.len (it : PIter) : Nat :=
  it.count

/-- The sequence of indices a pure backward traversal yields, by repeated
`next_back`. -/
def PIter.backSeq : PIter → List Nat
  | ⟨_, 0, _⟩ => []
  | ⟨h, Nat.succ t, n⟩ => t :: PIter.backSeq ⟨h, t, n⟩

/-- Whether a reload outcome is the borrow-conflict error. -/
def isBorrowedErr (r : Except ReloadError Unit) : Bool :=
  match r with
  | Except.error (ReloadError.borrowed _) => true
  | _ => false

/-- Modelled from the source (`Item::name`, `default.rs` lines 38-40):
`std::any::type_name::<Item>()` is one fixed string determined by the
wrapper type alone; its exact characters are irrelevant, only that it does
not depend on the wrapped provider. -/
def itemTypeName : String :=
  "more_config::default::Item"

/-- An item yielded by `ProviderIter::next` / `next_back` (`default.rs`
lines 27-45): a wrapper around the borrowed list entry. -/
structure YieldedItem where
  base : Provider

/-- `ConfigurationProvider::get` for `Item` (`default.rs` lines 30-32):
delegates to the wrapped provider. -/
def YieldedItem.get (it : YieldedItem) (k : String) : Option String :=
  it.base.get k

/-- `ConfigurationProvider::name` for `Item` (`default.rs` lines 38-40):
the wrapper's type name, NOT the wrapped provider's name. -/
def YieldedItem.name (_ : YieldedItem) : String :=
  itemTypeName

/-- Claim C1: `root.get(k)` queries the providers from last-registered to
first-registered and returns the first `Some` any provider yields, `none`
when no provider has the key; hence with two providers both defining `k`
the later-registered one wins, and when the later one does not define `k`
the earlier one's value is returned. -/
theorem rootGet_last_wins (s : RootState) (ps : List Provider) (p p1 p2 : Provider)
    (k : String) (v1 v2 : String) :
    (s.providers = ps ++ [p] →
      rootGet s k = match p.get k with
        | some v => some v
        | none => firstSome ps.reverse k)
    ∧ (s.providers = [] → rootGet s k = none)
    ∧ (s.providers = [p1, p2] → p1.get k = some v1 → p2.get k = some v2 →
        rootGet s k = some v2)
    ∧ (s.providers = [p1, p2] → p1.get k = some v1 → p2.get k = none →
        rootGet s k = some v1) := by
  refine ⟨?_, ?_, ?_, ?_⟩
  · intro h
    simp only [rootGet, h, List.reverse_append, List.reverse_cons, List.reverse_nil,
      List.nil_append, List.singleton_append, firstSome]
  · intro h
    simp [rootGet, h, firstSome]
  · intro h h1 h2
    simp [rootGet, h, firstSome, h1, h2]
  · intro h h1 h2
    simp [rootGet, h, firstSome, h1, h2]

/-- Witness for C1 at concrete providers P1 (registered first) and P2. -/
theorem rootGet_last_wins_witness :
    (rootGet { providers := [⟨"P1", fun k => if k = "a:b" then some "one" else none,
                              fun _ => none, fun _ => [], none, 0, 0⟩,
                             ⟨"P2", fun k => if k = "a:b" then some "two" else none,
                              fun _ => none, fun _ => [], none, 0, 0⟩],
               token := ⟨0, false, []⟩, nextTokenId := 1,
               refBorrows := 0, rcExtra := 0, weakCount := 0 } "a:b" = some "two")
    ∧ (rootGet { providers := [⟨"P1", fun k => if k = "a:b" then some "one" else none,
                                fun _ => none, fun _ => [], none, 0, 0⟩,
                               ⟨"P2", fun _ => none,
                                fun _ => none, fun _ => [], none, 0, 0⟩],
                 token := ⟨0, false, []⟩, nextTokenId := 1,
                 refBorrows := 0, rcExtra := 0, weakCount := 0 } "a:b" = some "one") := by
  constructor
  · exact (rootGet_last_wins _ [] ⟨"", fun _ => none, fun _ => none, fun _ => [], none, 0, 0⟩
      ⟨"P1", fun k => if k = "a:b" then some "one" else none,
        fun _ => none, fun _ => [], none, 0, 0⟩
      ⟨"P2", fun k => if k = "a:b" then some "two" else none,
        fun _ => none, fun _ => [], none, 0, 0⟩
      "a:b" "one" "two").2.2.1 rfl rfl rfl
  · exact (rootGet_last_wins _ [] ⟨"", fun _ => none, fun _ => none, fun _ => [], none, 0, 0⟩
      ⟨"P1", fun k => if k = "a:b" then some "one" else none,
        fun _ => none, fun _ => [], none, 0, 0⟩
      ⟨"P2", fun _ => none, fun _ => none, fun _ => [], none, 0, 0⟩
      "a:b" "one" "two").2.2.2 rfl rfl rfl

/-- The error component of one reload iteration is exactly the provider's
`load()` error paired with its own name. -/
lemma reloadStep_snd (p : Provider) :
    (reloadStep p).2 = p.loadErr.map (fun e => (p.name, e)) := by
  cases hp : p.loadErr <;> simp [reloadStep, Provider.load, hp]

/-- One reload iteration always invokes the provider's `load()`. -/
lemma reloadStep_loadCount (p : Provider) :
    ((reloadStep p).1).loadCount = p.loadCount + 1 := by
  cases hp : p.loadErr <;> simp [reloadStep, Provider.load, hp]

/-- One reload iteration always captures the provider's reload token. -/
lemma reloadStep_tokenCaptures (p : Provider) :
    ((reloadStep p).1).tokenCaptures = p.tokenCaptures + 1 := by
  cases hp : p.loadErr <;> simp [reloadStep, Provider.load, hp]

/-- One reload iteration preserves the provider's name. -/
lemma reloadStep_name (p : Provider) :
    ((reloadStep p).1).name = p.name := by
  cases hp : p.loadErr <;> simp [reloadStep, Provider.load, hp]

/-- A successful `load()` installs the provider's pending data. -/
lemma reloadStep_get_ok (p : Provider) (h : p.loadErr = none) :
    ((reloadStep p).1).get = p.pendingGet := by
  simp [reloadStep, Provider.load, h]

/-- The collected error list of a reload loop is the `(name, error)` pair of
each failing provider, in registration order. -/
lemma reloadErrors_eq (ps : List Provider) :
    (ps.map reloadStep).filterMap Prod.snd
      = ps.filterMap (fun p => p.loadErr.map (fun e => (p.name, e))) := by
  induction ps with
  | nil => rfl
  | cons p rest ih =>
    simp only [List.map_cons, List.filterMap_cons, reloadStep_snd, ih]

/-- `reload` when exclusive access is obtained, written out. -/
lemma reload_of_free (s : RootState) (h : s.refBorrows = 0) :
    reload s =
      ({ s with providers := s.providers.map (fun p => (reloadStep p).1),
                token := ⟨s.nextTokenId, false, []⟩,
                nextTokenId := s.nextTokenId + 1 },
       (if (s.providers.filterMap (fun p => p.loadErr.map (fun e => (p.name, e)))).isEmpty
          then Except.ok ()
          else Except.error (ReloadError.provider
            (s.providers.filterMap (fun p => p.loadErr.map (fun e => (p.name, e)))))),
       some s.token.notify) := by
  simp [reload, h, reloadErrors_eq, List.map_map, Function.comp_def]
  simp only [reloadStep_snd, Option.map_eq_none']

/-- `reload` when a shared borrow is outstanding, written out. -/
lemma reload_of_borrowed (s : RootState) (h : ¬ s.refBorrows = 0) :
    reload s = (s, Except.error (ReloadError.borrowed (some (s.rcExtra + s.weakCount))),
                none) := by
  simp [reload, h]

/-- Claim C2: a `reload()` that obtains exclusive access swaps in a freshly
built composite token and fires the previous token exactly once,
unconditionally (no assumption on any provider's `load()` outcome): every
callback registered on the old token has run exactly once more, the old
token reports `has_changed`, and `reload_token()` afterwards returns a
different token object that starts unfired. -/
theorem reload_fires_old_token_once (s : RootState)
    (h0 : s.refBorrows = 0) (h1 : s.token.fired = false)
    (h2 : s.token.id < s.nextTokenId) :
    ((reload s).2.2 = some ⟨s.token.id, true, s.token.callbackRuns.map (· + 1)⟩)
    ∧ (∀ t, (reload s).2.2 = some t → t.hasChanged = true)
    ∧ ((reload s).1.token = ⟨s.nextTokenId, false, []⟩)
    ∧ ((reload s).1.token ≠ s.token)
    ∧ ((reload s).1.token.fired = false)
    ∧ ((reload s).1.token.id < (reload s).1.nextTokenId) := by
  have hn : s.token.notify = ⟨s.token.id, true, s.token.callbackRuns.map (· + 1)⟩ := by
    simp [MToken.notify, h1]
  rw [reload_of_free s h0]
  refine ⟨by simp [hn], ?_, rfl, ?_, rfl, by simp⟩
  · intro t ht
    simp only [Option.some.injEq] at ht
    subst ht
    simp [hn, MToken.hasChanged]
  · intro hcontra
    have : s.nextTokenId = s.token.id := congrArg MToken.id hcontra
    omega

/-- Witness for C2 at `demoC2` (one provider's load fails, yet the old token
fires exactly once and a fresh token is installed). -/
theorem reload_fires_old_token_once_witness :
    ((reload demoC2).2.2
        = some ⟨demoC2.token.id, true, demoC2.token.callbackRuns.map (· + 1)⟩)
    ∧ (∀ t, (reload demoC2).2.2 = some t → t.hasChanged = true)
    ∧ ((reload demoC2).1.token = ⟨demoC2.nextTokenId, false, []⟩)
    ∧ ((reload demoC2).1.token ≠ demoC2.token)
    ∧ ((reload demoC2).1.token.fired = false)
    ∧ ((reload demoC2).1.token.id < (reload demoC2).1.nextTokenId) :=
  reload_fires_old_token_once demoC2 rfl rfl (by decide)

/-- Claim C3: a `reload()` attempted while a shared borrow of the provider
list is outstanding (a live `providers()` enumeration) returns
`ReloadError::Borrowed(_)` and changes nothing: the whole root state —
every provider's data and load counter, and the current change token — is
exactly as before, and no old token is fired; once the borrow is released,
`reload()` succeeds (here: when every provider's `load()` succeeds, it
returns `Ok(())`). -/
theorem reload_borrow_conflict (s : RootState) (h : s.refBorrows = 0) :
    (∀ t : RootState, t.refBorrows ≠ 0 →
      (reload t).1 = t ∧ (reload t).2.2 = none
        ∧ (reload t).2.1 = Except.error (ReloadError.borrowed (some (t.rcExtra + t.weakCount))))
    ∧ ((reload (providersBorrow s)).1 = providersBorrow s)
    ∧ ((reload (providersBorrow s)).2.1
        = Except.error (ReloadError.borrowed (some (s.rcExtra + s.weakCount))))
    ∧ ((reload (providersBorrow s)).2.2 = none)
    ∧ ((providersBorrow s).providers = s.providers)
    ∧ ((providersBorrow s).token = s.token)
    ∧ (dropBorrow (providersBorrow s) = s)
    ∧ ((∀ p ∈ s.providers, p.loadErr = none) → (reload s).2.1 = Except.ok ()) := by
  have hb : (providersBorrow s).refBorrows ≠ 0 := by simp [providersBorrow]
  have hpb := reload_of_borrowed (providersBorrow s) hb
  refine ⟨?_, by rw [hpb], by rw [hpb]; rfl, by rw [hpb], rfl, rfl, ?_, ?_⟩
  · intro t ht
    rw [reload_of_borrowed t ht]
    exact ⟨rfl, rfl, rfl⟩
  · simp [dropBorrow, providersBorrow]
  · intro hall
    rw [reload_of_free s h]
    have : s.providers.filterMap (fun p => p.loadErr.map (fun e => (p.name, e))) = [] := by
      rw [List.filterMap_eq_nil_iff]
      intro p hp
      simp [hall p hp]
    simp [this]

/-- Witness for C3 at `demoC3`. -/
theorem reload_borrow_conflict_witness :
    (∀ t : RootState, t.refBorrows ≠ 0 →
      (reload t).1 = t ∧ (reload t).2.2 = none
        ∧ (reload t).2.1 = Except.error (ReloadError.borrowed (some (t.rcExtra + t.weakCount))))
    ∧ ((reload (providersBorrow demoC3)).1 = providersBorrow demoC3)
    ∧ ((reload (providersBorrow demoC3)).2.1
        = Except.error (ReloadError.borrowed (some (demoC3.rcExtra + demoC3.weakCount))))
    ∧ ((reload (providersBorrow demoC3)).2.2 = none)
    ∧ ((providersBorrow demoC3).providers = demoC3.providers)
    ∧ ((providersBorrow demoC3).token = demoC3.token)
    ∧ (dropBorrow (providersBorrow demoC3) = demoC3)
    ∧ ((∀ p ∈ demoC3.providers, p.loadErr = none) → (reload demoC3).2.1 = Except.ok ()) :=
  reload_borrow_conflict demoC3 rfl

/-- Claim C4: when `reload()` obtains exclusive access it loads every
provider in registration order; a failing provider never aborts the loop
(every provider's `load()` is invoked and its reload token captured,
`loadCount` and `tokenCaptures` each grow by one for all of them, and a
successful provider's data is updated), and the result is `Ok(())` when the
collected error list — one `(provider_name, error)` pair per failed
provider, in registration order, none for the successes — is empty, and
`ReloadError::Provider` of that list otherwise. -/
theorem reload_best_effort (s : RootState) (h : s.refBorrows = 0) :
    ((reload s).1.providers = s.providers.map (fun p => (reloadStep p).1))
    ∧ (∀ p : Provider, ((reloadStep p).1).loadCount = p.loadCount + 1)
    ∧ (∀ p : Provider, ((reloadStep p).1).tokenCaptures = p.tokenCaptures + 1)
    ∧ (∀ p : Provider, ((reloadStep p).1).name = p.name)
    ∧ (∀ p : Provider, p.loadErr = none → ((reloadStep p).1).get = p.pendingGet)
    ∧ (∀ p : Provider, (reloadStep p).2 = p.loadErr.map (fun e => (p.name, e)))
    ∧ ((reload s).2.1 =
        if (s.providers.filterMap (fun p => p.loadErr.map (fun e => (p.name, e)))).isEmpty
        then Except.ok ()
        else Except.error (ReloadError.provider
          (s.providers.filterMap (fun p => p.loadErr.map (fun e => (p.name, e)))))) := by
  rw [reload_of_free s h]
  exact ⟨rfl, reloadStep_loadCount, reloadStep_tokenCaptures, reloadStep_name,
    reloadStep_get_ok, reloadStep_snd, rfl⟩

/-- Witness for C4 at `demoC4`. -/
theorem reload_best_effort_witness :
    ((reload demoC4).1.providers = demoC4.providers.map (fun p => (reloadStep p).1))
    ∧ (∀ p : Provider, ((reloadStep p).1).loadCount = p.loadCount + 1)
    ∧ (∀ p : Provider, ((reloadStep p).1).tokenCaptures = p.tokenCaptures + 1)
    ∧ (∀ p : Provider, ((reloadStep p).1).name = p.name)
    ∧ (∀ p : Provider, p.loadErr = none → ((reloadStep p).1).get = p.pendingGet)
    ∧ (∀ p : Provider, (reloadStep p).2 = p.loadErr.map (fun e => (p.name, e)))
    ∧ ((reload demoC4).2.1 =
        if (demoC4.providers.filterMap (fun p => p.loadErr.map (fun e => (p.name, e)))).isEmpty
        then Except.ok ()
        else Except.error (ReloadError.provider
          (demoC4.providers.filterMap (fun p => p.loadErr.map (fun e => (p.name, e)))))) :=
  reload_best_effort demoC4 rfl

/-- Folding with an arbitrary accumulator prepends it to the fold from
nil. -/
lemma foldl_append_childKeys (ps : List Provider) (parent : Option String)
    (acc : List String) :
    ps.foldl (fun a p => a ++ p.childKeys parent) acc = acc ++ childKeysAll ps parent := by
  induction ps generalizing acc with
  | nil => simp [childKeysAll]
  | cons p rest ih =>
    simp only [childKeysAll, List.foldl_cons, List.nil_append]
    rw [ih, ih (p.childKeys parent), List.append_assoc]

/-- The aggregated child-key list of `p :: ps` is `p`'s keys followed by the
rest's. -/
lemma childKeysAll_cons (p : Provider) (ps : List Provider) (parent : Option String) :
    childKeysAll (p :: ps) parent = p.childKeys parent ++ childKeysAll ps parent := by
  simp only [childKeysAll, List.foldl_cons, List.nil_append]
  exact foldl_append_childKeys ps parent _

/-- A key is aggregated exactly when some provider exposes it. -/
lemma mem_childKeysAll (k : String) (ps : List Provider) (parent : Option String) :
    k ∈ childKeysAll ps parent ↔ ∃ p ∈ ps, k ∈ p.childKeys parent := by
  induction ps with
  | nil => simp [childKeysAll]
  | cons p rest ih => simp [childKeysAll_cons, ih]

/-- Claim C5 (amended: deduplication is by exact string equality, not
case-insensitive): for every root (parent `none`) and every section (parent
`some path`), `children()` yields one section per distinct child key exposed
by any provider under that parent, each distinct key exactly once. -/
theorem children_distinct_keys (s : RootState) (parent : Option String) :
    ((childrenKeys s.providers parent).Nodup)
    ∧ (∀ k, k ∈ childrenKeys s.providers parent ↔ ∃ p ∈ s.providers, k ∈ p.childKeys parent)
    ∧ (∀ k, k ∈ childrenKeys s.providers parent →
        (childrenKeys s.providers parent).count k = 1) := by
  refine ⟨List.nodup_dedup _, ?_, ?_⟩
  · intro k
    rw [childrenKeys, List.mem_dedup, mem_childKeysAll]
  · intro k hk
    exact List.count_eq_one_of_mem (List.nodup_dedup _) hk

/-- Counterexample to C5 as stated: two providers exposing the same child
name in different letter cases (`x` and `X`) contribute two sections, not
one — `HashSet<String>` deduplicates under exact string equality, so the
case-insensitive collapse the claim asserts does not happen. -/
theorem children_case_collapse_cex :
    childrenKeys [demoLowerX, demoUpperX] none = ["x", "X", "y"]
    ∧ "x".data.map Char.toLower = "X".data.map Char.toLower
    ∧ (childrenKeys [demoLowerX, demoUpperX] none).length = 3
    ∧ ¬ (childrenKeys [demoLowerX, demoUpperX] none).length = 2 := by
  refine ⟨by decide, by decide, by decide, by decide⟩

/-- A pure backward traversal (`.rev()`, as `Configuration::get` uses it)
yields every index exactly once, from `count - 1` down to `0`: the order
`rootGet` scans in. -/
lemma backSeq_new_eq_reverse_range (n : Nat) :
    (PIter.new n).backSeq = (List.range n).reverse := by
  have key : ∀ t h m : Nat, PIter.backSeq ⟨h, t, m⟩ = (List.range t).reverse := by
    intro t
    induction t with
    | zero => intro h m; simp [PIter.backSeq]
    | succ t ih =>
      intro h m
      simp [PIter.backSeq, ih, List.range_succ]
  exact key n 0 n

/-- Claim C6 fails on the code (the property itself is the contract of
Rust's `ExactSizeIterator` and `DoubleEndedIterator`, which the
implementation violates): over a single registered provider, `next()`
yields provider `0`; after that, `len()` still reports `1` although nothing
remains (the claim requires the remaining count, `0`), `next()` itself is
exhausted, and `next_back()` yields provider `0` a second time — interleaved
front-and-back consumption repeats a provider, because `next` guards on
`head < items.len()` and `next_back` on `tail > 0` instead of the cursors
crossing. -/
theorem provider_iter_contract_bug :
    (PIter.next (PIter.new 1) = some (0, ⟨1, 1, 1⟩))
    ∧ (PIter.next ⟨1, 1, 1⟩ = none)
    ∧ (PIter.len ⟨1, 1, 1⟩ = 1)
    ∧ (PIter.nextBack ⟨1, 1, 1⟩ = some (0, ⟨1, 0, 1⟩)) := by
  refine ⟨by decide, by decide, by decide, by decide⟩

/-- Claim C7: a section is an address, not a store: `section.get(k)` is
exactly `root.get(combine(path, k))`, the child section of a section is the
root's section at the combined path, and a section read depends only on the
root's current provider list. -/
theorem section_delegates_to_root (s : RootState) (path key : String) :
    (sectionGet s path key = rootGet s (combine path key))
    ∧ (subkey path key = combine path key)
    ∧ (∀ s2 : RootState, s2.providers = s.providers →
        sectionGet s2 path key = sectionGet s path key) := by
  refine ⟨rfl, rfl, ?_⟩
  intro s2 h
  simp only [sectionGet, rootGet, h]

/-- Claim C8: `section.value()` is the root lookup at the section's own
path when that lookup yields a value, and the `Value` default (the empty
string) when it yields nothing; it is a total function — no panic, no
error, whatever the path addresses. -/
theorem section_value_default (s : RootState) (path : String) :
    (sectionValue s path = (rootGet s path).getD "")
    ∧ (∀ v, rootGet s path = some v → sectionValue s path = v)
    ∧ (rootGet s path = none → sectionValue s path = "") := by
  refine ⟨rfl, ?_, ?_⟩
  · intro v hv
    simp [sectionValue, hv]
  · intro hv
    simp [sectionValue, hv]

/-- Claim C9: `reload()` fails with `Borrowed` exactly when the `RefCell`
holding the provider list is borrowed at the moment of the call (a live
`providers()` enumeration); root clones and live sections — which only add
`Rc` strong references — never cause the failure, yet they inflate the
advisory count inside `Borrowed`, which is computed from the reference
counts (`strong - 1 + weak`) and not from the outstanding `RefCell`
borrows. -/
theorem reload_borrowed_iff (s : RootState) :
    (isBorrowedErr (reload s).2.1 = true ↔ s.refBorrows ≠ 0)
    ∧ (isBorrowedErr (reload (mkSectionState s)).2.1 = true ↔ s.refBorrows ≠ 0)
    ∧ (isBorrowedErr (reload (providersBorrow s)).2.1 = true)
    ∧ (s.refBorrows ≠ 0 →
        (reload (mkSectionState s)).2.1
          = Except.error (ReloadError.borrowed (some (s.rcExtra + 1 + s.weakCount)))) := by
  have key : ∀ t : RootState, isBorrowedErr (reload t).2.1 = true ↔ t.refBorrows ≠ 0 := by
    intro t
    by_cases ht : t.refBorrows = 0
    · have h21 : (reload t).2.1 =
          (if (t.providers.filterMap (fun p => p.loadErr.map (fun e => (p.name, e)))).isEmpty
           then Except.ok ()
           else Except.error (ReloadError.provider
             (t.providers.filterMap (fun p => p.loadErr.map (fun e => (p.name, e)))))) := by
        rw [reload_of_free t ht]
      have hfalse : isBorrowedErr
          (if (t.providers.filterMap (fun p => p.loadErr.map (fun e => (p.name, e)))).isEmpty
           then Except.ok ()
           else Except.error (ReloadError.provider
             (t.providers.filterMap (fun p => p.loadErr.map (fun e => (p.name, e)))))) = false := by
        cases hc : (t.providers.filterMap (fun p => p.loadErr.map (fun e => (p.name, e)))).isEmpty
          <;> simp [hc, isBorrowedErr]
      rw [h21, hfalse]
      simp [ht]
    · rw [reload_of_borrowed t ht]
      simp [isBorrowedErr, ht]
  refine ⟨key s, ?_, ?_, ?_⟩
  · rw [key (mkSectionState s)]
    simp [mkSectionState]
  · rw [key (providersBorrow s)]
    simp [providersBorrow]
  · intro h
    have hb : (mkSectionState s).refBorrows ≠ 0 := by simp [mkSectionState, h]
    rw [reload_of_borrowed _ hb]
    simp [mkSectionState]

/-- Claim C10: every item the `providers()` enumeration yields reports the
same fixed wrapper type name, independent of (and therefore masking) the
underlying provider's own name, even though lookups are delegated to the
underlying provider; by contrast the `(name, error)` pairs of `reload()`
and of root construction use each underlying provider's own `name()`. -/
theorem item_name_masks_provider (p q : Provider) (e k : String) :
    (YieldedItem.name ⟨p⟩ = itemTypeName)
    ∧ (YieldedItem.name ⟨p⟩ = YieldedItem.name ⟨q⟩)
    ∧ (YieldedItem.get ⟨p⟩ k = p.get k)
    ∧ (p.loadErr = some e → (reloadStep p).2 = some (p.name, e))
    ∧ (p.loadErr = some e → newRoot [p] = Except.error (ReloadError.provider [(p.name, e)]))
    ∧ ((reload { providers := [p], token := ⟨0, false, []⟩, nextTokenId := 1,
                 refBorrows := 0, rcExtra := 0, weakCount := 0 }).2.1
        = if p.loadErr.isNone then Except.ok ()
          else Except.error (ReloadError.provider
            (p.loadErr.toList.map (fun er => (p.name, er))))) := by
  refine ⟨rfl, rfl, rfl, ?_, ?_, ?_⟩
  · intro h
    rw [reloadStep_snd, h]
    rfl
  · intro h
    simp [newRoot, reloadStep_snd, h]
  · rw [reload_of_free _ rfl]
    cases hp : p.loadErr <;> simp [hp]
